import Mathlib

/-!
# RealmLister — Realm Registry & Liveness/Launch Engine: verification

Shallow embedding of the RealmLister application (CodebyVision/RealmLister).

The repository's visible source is the TypeScript front end
(`src/main.ts` and a second UI variant).  The backend engine (the Tauri
commands `get_servers`, `add_server`, `update_server`, `remove_server`,
`get_settings`, `save_settings_cmd`, `check_realm_status`, `play_wow`)
is not part of the visible source; those definitions are modelled from
the specification and are marked `Modelled from the spec:` in their doc
comments.  Front-end functions (`escapeHtml`, `saveServerFromForm`,
`confirmRemove`, `renderServerList`, `checkServerStatus`) are translated
directly from the TypeScript source.
-/

/-- A server entry, mirroring the TS interface `Server`
(`id`, `name`, `realmlist_host`, `port`, `wow_path?`, `wow_exe`).
Ids are opaque unique identifiers; we represent them as `Nat`.
JS numbers holding ports are represented as `Int` (the form accepts
negative values via `parseInt`). -/
structure Server where
  id : Nat
  name : String
  realmlist_host : String
  port : Int
  wow_path : Option String
  wow_exe : String
deriving DecidableEq, Repr

/-- App settings, mirroring the TS interface `AppSettings`. -/
structure AppSettings where
  default_wow_path : Option String
  realmlist_locale : String
deriving DecidableEq, Repr

/-- Transient probe result, mirroring the TS interface `RealmStatus`. -/
structure RealmStatus where
  online : Bool
  latency_ms : Nat
deriving DecidableEq, Repr

/-- Error taxonomy of the engine (spec §7): Validation, NotFound,
IO/FileSystem, Configuration, Launch. -/
inductive EngineError
  | Validation
  | NotFound
  | IOErr
  | FileSystem
  | Configuration
  | Launch
deriving DecidableEq, Repr

-- ### Liveness prober

/-- Outcome of one transport-level connection attempt, abstracting the
network: either the TCP connection completed after `elapsed_ms`
milliseconds, or the attempt failed (DNS failure, connection refused,
host unreachable). -/
inductive ConnOutcome
  | connected (elapsed_ms : Nat)
  | failed
deriving DecidableEq, Repr

/-- Modelled from the spec: the backend prober's port fallback
(`check_realm_status` lives in the Rust backend, absent from the visible
source).  "Default port used when the caller supplies none or an
invalid (≤0) value is 3724." -/
def effectiveProbePort (port : Int) : Int :=
  if port ≤ 0 then 3724 else port

/-- Modelled from the spec: the backend command `check_realm_status`
(`probe(host, port, timeout)`), absent from the visible source.  It
never fails: a connection completed before the timeout reports
`online = true` with the elapsed latency; a timeout or any failure
(refused, unreachable, DNS failure) reports `online = false` with
`latency_ms = 0`.  The network is abstracted by the `outcome`
argument. -/
def checkRealmStatus (_host : String) (_port : Int) (timeout_ms : Nat)
    (outcome : ConnOutcome) : RealmStatus :=
  match outcome with
  | .connected e => if e < timeout_ms then ⟨true, e⟩ else ⟨false, 0⟩
  | .failed => ⟨false, 0⟩

-- ### Front-end port handling

/-- JavaScript `String.prototype.trim` over the character list:
leading and trailing whitespace removed.  (Defined structurally so
that proofs can evaluate it.) -/
def trimChars (l : List Char) : List Char :=
  ((l.dropWhile Char.isWhitespace).reverse.dropWhile Char.isWhitespace).reverse

/-- JavaScript `s.trim()`. -/
def jsTrim (s : String) : String :=
  ⟨trimChars s.data⟩

/-- JavaScript `p || d` on a number `p`: `p` when truthy, `d` when
falsy.  The only falsy numeric value representable here is `0`
(translating `server.port || 3724` in `checkServerStatus`,
`checkSelectedServerStatus` and `saveServerFromForm`). -/
def jsOrDefault (p : Int) (d : Int) : Int :=
  if p = 0 then d else p

/-- The port value the form submission sends to `add_server` /
`update_server` (from `saveServerFromForm`): the form field parsed as
`Option Int` (`none` = empty field), then
`const port = portVal ? parseInt(portVal, 10) : 3724` and
`port: port || 3724`. -/
def submittedPort (portParsed : Option Int) : Int :=
  jsOrDefault (portParsed.getD 3724) 3724

/-- The port the front end passes to `check_realm_status`
(`port: server.port || 3724` in both `checkServerStatus` and
`checkSelectedServerStatus`). -/
def probeCallPort (server : Server) : Int :=
  jsOrDefault server.port 3724

-- ### Engine state and persistence (modelled from the spec)

/-- In-memory engine state: the authoritative `ServerList` and
`AppSettings` copies, plus the id-minting counter (the spec mints an
opaque unique identifier on every add; we model the generator as a
counter that never repeats). -/
structure EngineState where
  servers : List Server
  settings : AppSettings
  nextId : Nat
deriving DecidableEq, Repr

/-- Durable state: the two structured records held by the Persistence
Store (one for the ServerList, one for AppSettings). -/
structure Disk where
  servers : List Server
  settings : AppSettings
deriving DecidableEq, Repr

/-- Engine = in-memory state + durable state. -/
structure Engine where
  mem : EngineState
  disk : Disk
deriving DecidableEq, Repr

/-- Default settings: locale `enUS`, no default install path. -/
def defaultSettings : AppSettings :=
  { default_wow_path := none, realmlist_locale := "enUS" }

/-- Fresh engine: empty registry, default settings, disk in sync. -/
def engine0 : Engine :=
  { mem := { servers := [], settings := defaultSettings, nextId := 0 },
    disk := { servers := [], settings := defaultSettings } }

/-- Modelled from the spec: a mutating operation "persists
synchronously before returning success" — committing a new in-memory
state writes both records to disk atomically before the operation
returns. -/
def commit (mem : EngineState) : Engine :=
  { mem := mem, disk := { servers := mem.servers, settings := mem.settings } }

/-- Modelled from the spec: `get_servers` returns the current
in-memory collection, no side effect. -/
def getServers (eng : Engine) : List Server :=
  eng.mem.servers

/-- Modelled from the spec: `get_settings`. -/
def getSettings (eng : Engine) : AppSettings :=
  eng.mem.settings

/-- Modelled from the spec: `add_server` (absent from the visible
source, estimated from its observable contract).  Rejects empty
`name`/`realmlist_host` with a validation error before any persistence
or I/O; otherwise mints a new unique id, appends to the collection,
persists, and returns the stored entry.  `ioOk` abstracts whether the
synchronous durable write succeeds; a failed write surfaces an IO error
and leaves both copies at their last-good value. -/
def addServer (entry : Server) (ioOk : Bool) (eng : Engine) :
    Except EngineError Server × Engine :=
  if entry.name = "" ∨ entry.realmlist_host = "" then
    (.error .Validation, eng)
  else if ioOk then
    let stored : Server := { entry with id := eng.mem.nextId }
    (.ok stored,
      commit { eng.mem with
        servers := eng.mem.servers ++ [stored],
        nextId := eng.mem.nextId + 1 })
  else
    (.error .IOErr, eng)

/-- Modelled from the spec: `update_server` — "fails with NotFound if
`id` is absent; otherwise replaces all mutable fields, keeps the same
id, persists, returns the updated entry."  Validation (empty
`name`/`realmlist_host`) applies in the "otherwise" branch, before any
persistence or I/O. -/
def updateServer (id : Nat) (entry : Server) (ioOk : Bool) (eng : Engine) :
    Except EngineError Server × Engine :=
  if eng.mem.servers.any (fun s => s.id = id) then
    if entry.name = "" ∨ entry.realmlist_host = "" then
      (.error .Validation, eng)
    else if ioOk then
      let stored : Server := { entry with id := id }
      (.ok stored,
        commit { eng.mem with
          servers := eng.mem.servers.map (fun s => if s.id = id then stored else s) })
    else
      (.error .IOErr, eng)
  else
    (.error .NotFound, eng)

/-- Modelled from the spec: `remove_server` — "fails with NotFound if
absent; otherwise deletes the entry and persists."  Calling remove
twice on the same id fails the second time with NotFound, by design. -/
def removeServer (id : Nat) (ioOk : Bool) (eng : Engine) :
    Except EngineError Unit × Engine :=
  if eng.mem.servers.any (fun s => s.id = id) then
    if ioOk then
      (.ok (),
        commit { eng.mem with
          servers := eng.mem.servers.filter (fun s => s.id ≠ id) })
    else
      (.error .IOErr, eng)
  else
    (.error .NotFound, eng)

/-- Modelled from the spec: `save_settings_cmd` — validates nothing
beyond type shape, persists synchronously. -/
def saveSettingsCmd (st : AppSettings) (ioOk : Bool) (eng : Engine) :
    Except EngineError Unit × Engine :=
  if ioOk then
    (.ok (), commit { eng.mem with settings := st })
  else
    (.error .IOErr, eng)

/-- Modelled from the spec: the Persistence Store's `load` of the
ServerList record after a restart — returns the durable copy. -/
def loadServersFromDisk (d : Disk) : List Server :=
  d.servers

/-- Modelled from the spec: the Persistence Store's `load` of the
AppSettings record after a restart. -/
def loadSettingsFromDisk (d : Disk) : AppSettings :=
  d.settings

-- ### Realm Config Writer and Launcher (modelled from the spec)

/-- Modelled from the spec: the single-line realm pointer directive —
"a single-line directive of the form `set realmlist <host>`". -/
def realmlistContent (host : String) : String :=
  "set realmlist " ++ host

/-- Modelled from the spec: the locale-specific configuration path
inside the installation tree ("a fixed relative layout keyed by locale
code"); the target client keeps `realmlist.wtf` under
`Data/<locale>/`. -/
def realmlistPath (installDir locale : String) : String :=
  installDir ++ "/Data/" ++ locale ++ "/realmlist.wtf"

/-- Modelled from the spec: step 3 of `play_wow` — effective executable
name is `server.wow_exe` if non-blank, else `"Wow.exe"`. -/
def effectiveExe (server : Server) : String :=
  if jsTrim server.wow_exe = "" then "Wow.exe" else server.wow_exe

/-- Observable side effects of one `play_wow` invocation:
`wrote` is the (path, content) of a completed realm pointer write,
`spawned` is the full path of a started executable; `none` means the
effect did not happen. -/
structure LaunchEffects where
  wrote : Option (String × String)
  spawned : Option String
deriving DecidableEq, Repr

/-- Modelled from the spec: the Launcher driving `play_wow`
(absent from the visible source).  Step 1 resolves the effective
install directory (`server.wow_path` if present, else
`settings.default_wow_path`; Configuration error if neither).  Step 2
invokes the Realm Config Writer (atomic temp-file+rename: a failed
write leaves no partial file); its failure short-circuits steps 3/4.
Steps 3/4 resolve the executable and start it detached.  `writeOk` and
`spawnOk` abstract the file-system and OS outcomes. -/
def launch (server : Server) (st : AppSettings) (writeOk spawnOk : Bool) :
    Except EngineError Unit × LaunchEffects :=
  match server.wow_path.orElse (fun _ => st.default_wow_path) with
  | none => (.error .Configuration, ⟨none, none⟩)
  | some dir =>
    if writeOk then
      let wrote := some (realmlistPath dir st.realmlist_locale,
                         realmlistContent server.realmlist_host)
      if spawnOk then
        (.ok (), ⟨wrote, some (dir ++ "/" ++ effectiveExe server)⟩)
      else
        (.error .Launch, ⟨wrote, none⟩)
    else
      (.error .FileSystem, ⟨none, none⟩)

-- ### Operation sequences over the engine (for persistence round-trips)

/-- One engine mutation command, as issued by the presentation layer. -/
inductive Op
  | add (entry : Server)
  | update (id : Nat) (entry : Server)
  | remove (id : Nat)
  | setSettings (st : AppSettings)
deriving DecidableEq, Repr

/-- Run one command, keeping the (possibly unchanged) engine state; the
`Bool` is the durable-write outcome for that command. -/
def runOp (op : Op) (ioOk : Bool) (eng : Engine) : Engine :=
  match op with
  | .add entry => (addServer entry ioOk eng).2
  | .update id entry => (updateServer id entry ioOk eng).2
  | .remove id => (removeServer id ioOk eng).2
  | .setSettings st => (saveSettingsCmd st ioOk eng).2

/-- Run a sequence of commands, each with its own durable-write
outcome. -/
def runOps (ops : List (Op × Bool)) (eng : Engine) : Engine :=
  ops.foldl (fun e p => runOp p.1 p.2 e) eng

/-- Run a sequence of `add_server` calls (all with successful durable
writes), stopping at the first error. -/
def addAll : List Server → Engine → Except EngineError Engine
  | [], eng => .ok eng
  | e :: rest, eng =>
    match addServer e true eng with
    | (.ok _, eng2) => addAll rest eng2
    | (.error err, _) => .error err

/-- The list of stored entries produced by minting consecutive ids
starting at `n` for the given submissions (proof-side description of
what a run of adds appends). -/
def mintAll (n : Nat) : List Server → List Server
  | [] => []
  | e :: rest => { e with id := n } :: mintAll (n + 1) rest

-- ### Front-end functions (translated from the TypeScript source)

/-- Result of the front-end save handler: either the local guard fired
(toast shown, no backend call at all), or the backend command was
invoked and returned `r`. -/
inductive SaveResult
  | localValidationError
  | backendResult (r : Except EngineError Server)
deriving Repr

/-- `saveServerFromForm` from the front-end source: trims the form
fields, substitutes the default port for an empty field
(`portVal ? parseInt(portVal, 10) : 3724`), checks
`if (!name || !host)` before invoking anything, then calls
`update_server` (when editing) or `add_server` with
`port: port || 3724`, `wow_exe` defaulted to `"Wow.exe"` and blank
`wow_path` sent as `null`.  The raw port field is modelled as
`Option Int` (`none` = empty field). -/
def saveServerFromForm (nameRaw hostRaw : String) (portParsed : Option Int)
    (wowExeRaw wowPathRaw : String) (editingId : Option Nat) (ioOk : Bool)
    (eng : Engine) : SaveResult × Engine :=
  let name := jsTrim nameRaw
  let host := jsTrim hostRaw
  let port := submittedPort portParsed
  let wowExe := if jsTrim wowExeRaw = "" then "Wow.exe" else jsTrim wowExeRaw
  let wowPath := if jsTrim wowPathRaw = "" then none else some (jsTrim wowPathRaw)
  if name = "" ∨ host = "" then
    (.localValidationError, eng)
  else
    match editingId with
    | some i =>
      let r := updateServer i
        { id := i, name := name, realmlist_host := host, port := port,
          wow_path := wowPath, wow_exe := wowExe } ioOk eng
      (.backendResult r.1, r.2)
    | none =>
      let r := addServer
        { id := 0, name := name, realmlist_host := host, port := port,
          wow_path := wowPath, wow_exe := wowExe } ioOk eng
      (.backendResult r.1, r.2)

/-- Front-end UI state relevant to selection and status: the cached
server list, the status map (`Nat → Option RealmStatus`, `none` = no
entry) and the selected id. -/
structure UIState where
  serverList : List Server
  statusMap : Nat → Option RealmStatus
  selectedId : Option Nat

/-- `checkServerStatus`'s bookkeeping: the front end stores the
backend response in the status map, and its `catch` turns any rejected
invocation into `online = false, latency_ms = 0`. -/
def statusMapAfterCheck (ui : UIState) (serverId : Nat)
    (response : Except String RealmStatus) : Nat → Option RealmStatus :=
  fun k =>
    if k = serverId then
      some (match response with
            | .ok r => ⟨r.online, r.latency_ms⟩
            | .error _ => ⟨false, 0⟩)
    else ui.statusMap k

/-- `confirmRemove` from the front-end source: with a selection, invoke
`remove_server`; on success reload the list from the backend, delete
the removed id from the status map, and re-select the first entry of
the reloaded list (or nothing when it is empty).  On failure (caught),
the UI state is unchanged. -/
def confirmRemove (ui : UIState) (eng : Engine) (ioOk : Bool) :
    UIState × Engine :=
  match ui.selectedId with
  | none => (ui, eng)
  | some id =>
    match removeServer id ioOk eng with
    | (.error _, _) => (ui, eng)
    | (.ok _, eng2) =>
      let servers := getServers eng2
      ({ serverList := servers,
         statusMap := fun k => if k = id then none else ui.statusMap k,
         selectedId := servers.head?.map Server.id }, eng2)

-- ### escapeHtml and list rendering (translated from the source)

/-- HTML text-node serialization of a single character, per the WHATWG
fragment-serialization rules the browser applies when `escapeHtml`
reads back `div.innerHTML` after setting `div.textContent`: `&`, `<`,
`>` and the no-break space become entities, every other character is
unchanged. -/
def escChar (c : Char) : String :=
  if c = '&' then "&amp;"
  else if c = '<' then "&lt;"
  else if c = '>' then "&gt;"
  else if c = ' ' then "&nbsp;"
  else String.singleton c

/-- Character-list form of `escapeHtml`. -/
def escapeHtmlChars : List Char → List Char
  | [] => []
  | c :: rest => (escChar c).data ++ escapeHtmlChars rest

/-- `escapeHtml` from the front-end source
(`div.textContent = s; return div.innerHTML`). -/
def escapeHtml (s : String) : String :=
  ⟨escapeHtmlChars s.data⟩

/-- Inverse direction: decode the four entities `escapeHtml` can emit;
any other character passes through.  Used to state that escaping loses
no information (the escaped output still denotes exactly the original
text). -/
def unescapeChars : List Char → List Char
  | [] => []
  | '&' :: 'a' :: 'm' :: 'p' :: ';' :: rest => '&' :: unescapeChars rest
  | '&' :: 'l' :: 't' :: ';' :: rest => '<' :: unescapeChars rest
  | '&' :: 'g' :: 't' :: ';' :: rest => '>' :: unescapeChars rest
  | '&' :: 'n' :: 'b' :: 's' :: 'p' :: ';' :: rest => ' ' :: unescapeChars rest
  | c :: rest => c :: unescapeChars rest

/-- String form of `unescapeChars`. -/
def unescapeHtml (s : String) : String :=
  ⟨unescapeChars s.data⟩

/-- The `innerHTML` string `renderServerList` assigns to each list
item (`src/main.ts` line 75): two fixed spans whose data children are
`escapeHtml(s.name)` and `escapeHtml(s.realmlist_host)`. -/
def liInnerHTML (s : Server) : String :=
  "<span class=\"server-list-name\">" ++ escapeHtml s.name ++
    "</span><span class=\"server-list-host\">" ++
    escapeHtml s.realmlist_host ++ "</span>"

-- ### Concrete fixtures for witnesses

/-- A concrete server entry used by witnesses. -/
def mkServer (i : Nat) (p : Int) (wp : Option String) : Server :=
  { id := i, name := "A", realmlist_host := "h", port := p,
    wow_path := wp, wow_exe := "Wow.exe" }

/-- A concrete server entry with a chosen name and host, used by
witnesses and counterexamples. -/
def namedServer (nm hs : String) : Server :=
  { id := 0, name := nm, realmlist_host := hs, port := 3724,
    wow_path := none, wow_exe := "Wow.exe" }

/-- A concrete engine holding exactly one server (id 5). -/
def engOne : Engine :=
  commit { servers := [mkServer 5 3724 none], settings := defaultSettings,
           nextId := 6 }

/-- A concrete UI state selecting the one server of `engOne`, with a
cached status for it. -/
def uiOne : UIState :=
  { serverList := [mkServer 5 3724 none],
    statusMap := fun k => if k = 5 then some ⟨true, 10⟩ else none,
    selectedId := some 5 }

-- ### Theorems

-- #### C1 — the liveness probe never errors

/-- C1: For every host, port and timeout, the liveness probe
(`check_realm_status`) never returns an error to the caller — it is a
total function into `RealmStatus`: any failed connection attempt (DNS
failure, refusal, unreachable) yields `online = false` and
`latency_ms = 0`, an attempt the timeout beats yields the same, and a
connection completed within the timeout yields `online = true` with
the elapsed latency. -/
theorem checkRealmStatus_never_errors (host : String) (port : Int)
    (timeout_ms : Nat) (outcome : ConnOutcome) :
    (outcome = .failed →
      checkRealmStatus host port timeout_ms outcome = ⟨false, 0⟩) ∧
    (∀ e, outcome = .connected e → ¬ e < timeout_ms →
      checkRealmStatus host port timeout_ms outcome = ⟨false, 0⟩) ∧
    (∀ e, outcome = .connected e → e < timeout_ms →
      checkRealmStatus host port timeout_ms outcome = ⟨true, e⟩) := by
  refine ⟨fun h => by subst h; rfl, fun e h hl => ?_, fun e h hl => ?_⟩ <;>
    subst h <;> simp [checkRealmStatus, hl]

/-- Witness for C1 at concrete inputs. -/
theorem checkRealmStatus_never_errors_w :
    checkRealmStatus "logon.example.org" 3724 3000 .failed = ⟨false, 0⟩ ∧
    checkRealmStatus "logon.example.org" 3724 3000 (.connected 3000) = ⟨false, 0⟩ ∧
    checkRealmStatus "logon.example.org" 3724 3000 (.connected 42) = ⟨true, 42⟩ :=
  ⟨(checkRealmStatus_never_errors "logon.example.org" 3724 3000 .failed).1 rfl,
   (checkRealmStatus_never_errors "logon.example.org" 3724 3000
      (.connected 3000)).2.1 3000 rfl (by decide),
   (checkRealmStatus_never_errors "logon.example.org" 3724 3000
      (.connected 42)).2.2 42 rfl (by decide)⟩

-- #### C2 — default-port substitution

/-- C2 counterexample: a form port of −1 is ≤ 0 (invalid per the
claim), yet the add/update submission passes it through unchanged —
JavaScript `port || 3724` substitutes only for the falsy value 0 — so
the entry is stored with port −1, not 3724. -/
theorem submittedPort_neg_counterexample :
    submittedPort (some (-1)) = -1 ∧
    ((-1 : Int) ≤ 0) ∧
    submittedPort (some (-1)) ≠ 3724 ∧
    (getServers
        (saveServerFromForm "A" "logon.example.org" (some (-1)) "" "" none
          true engine0).2).map Server.port = [-1] := by
  refine ⟨by decide, by decide, by decide, by decide⟩

/-- C2 amended: the front-end substitution (`port || 3724`) replaces
only an unset or zero port; any nonzero value — including a negative
one — is passed through unchanged by the submission.  On the probe
path the backend prober additionally maps any remaining value ≤ 0 to
3724, so the probe always uses 3724 whenever the stored port is ≤ 0;
every positive port is used unchanged everywhere. -/
theorem port_default_amended (p : Int) (server : Server) :
    (submittedPort none = 3724) ∧
    (p = 0 → submittedPort (some p) = 3724) ∧
    (p ≠ 0 → submittedPort (some p) = p) ∧
    (server.port ≤ 0 → effectiveProbePort (probeCallPort server) = 3724) ∧
    (0 < server.port → effectiveProbePort (probeCallPort server) = server.port) := by
  refine ⟨by decide, fun h => ?_, fun h => ?_, fun h => ?_, fun h => ?_⟩
  · subst h; decide
  · simp [submittedPort, jsOrDefault, h]
  · rcases eq_or_ne server.port 0 with h0 | h0
    · simp [probeCallPort, jsOrDefault, effectiveProbePort, h0]
    · have hlt : server.port < 0 := lt_of_le_of_ne h h0
      simp only [probeCallPort, jsOrDefault, if_neg h0, effectiveProbePort]
      rw [if_pos h]
  · have h0 : server.port ≠ 0 := by omega
    simp only [probeCallPort, jsOrDefault, if_neg h0, effectiveProbePort]
    rw [if_neg (by omega)]

/-- Witness for the amended C2 at concrete inputs. -/
theorem port_default_amended_w :
    submittedPort none = 3724 ∧
    submittedPort (some 0) = 3724 ∧
    submittedPort (some 8085) = 8085 ∧
    effectiveProbePort (probeCallPort (mkServer 0 (-5) none)) = 3724 ∧
    effectiveProbePort (probeCallPort (mkServer 0 8085 none)) = 8085 :=
  ⟨(port_default_amended 0 (mkServer 0 (-5) none)).1,
   (port_default_amended 0 (mkServer 0 (-5) none)).2.1 rfl,
   (port_default_amended 8085 (mkServer 0 (-5) none)).2.2.1 (by decide),
   (port_default_amended 0 (mkServer 0 (-5) none)).2.2.2.1 (by decide),
   (port_default_amended 0 (mkServer 0 8085 none)).2.2.2.2 (by decide)⟩

-- #### C3 — launch configuration guard and write-failure short-circuit

/-- C3: With neither `server.wow_path` nor `settings.default_wow_path`
set, `play_wow` fails with a Configuration error and performs no file
write (and spawns nothing); and whenever the realm-config write of
step 2 fails, the executable is never started, so a launch never runs
the game with a stale realm pointer. -/
theorem launch_guard (server : Server) (st : AppSettings)
    (writeOk spawnOk : Bool) :
    (server.wow_path = none → st.default_wow_path = none →
      launch server st writeOk spawnOk = (.error .Configuration, ⟨none, none⟩)) ∧
    (writeOk = false → (launch server st writeOk spawnOk).2.spawned = none) := by
  constructor
  · intro h1 h2
    simp [launch, h1, h2, Option.orElse]
  · intro h
    subst h
    rcases hd : server.wow_path.orElse (fun _ => st.default_wow_path) with _ | dir <;>
      simp [launch, hd]

/-- Witness for C3 at concrete inputs. -/
theorem launch_guard_w :
    launch (mkServer 0 3724 none) defaultSettings true true
        = (.error .Configuration, ⟨none, none⟩) ∧
    (launch (mkServer 0 3724 (some "C:/WoW")) defaultSettings false true).2.spawned
        = none :=
  ⟨(launch_guard (mkServer 0 3724 none) defaultSettings true true).1 rfl rfl,
   (launch_guard (mkServer 0 3724 (some "C:/WoW")) defaultSettings false true).2 rfl⟩

-- #### C4 — realm pointer file content

/-- C4: For every host, the Realm Config Writer's pointer-file content
is exactly `set realmlist <host>` — a single line whenever the host
itself has no newline — and the content is independent of the server's
port (the port is never written to this file); for
`"logon.example.org"` the sole content line is exactly
`set realmlist logon.example.org`. -/
theorem realmlist_pointer_line (host : String) (s : Server) (p : Int)
    (hnl : '\n' ∉ host.data) :
    realmlistContent host = "set realmlist " ++ host ∧
    '\n' ∉ (realmlistContent host).data ∧
    realmlistContent "logon.example.org" = "set realmlist logon.example.org" ∧
    '\n' ∉ (realmlistContent "logon.example.org").data ∧
    realmlistContent { s with port := p }.realmlist_host
      = realmlistContent s.realmlist_host := by
  refine ⟨rfl, ?_, rfl, by decide, rfl⟩
  intro hmem
  rw [realmlistContent, String.data_append] at hmem
  rcases List.mem_append.mp hmem with h | h
  · revert h; decide
  · exact hnl h

/-- Witness for C4 at a concrete host. -/
theorem realmlist_pointer_line_w :
    realmlistContent "logon.example.org" = "set realmlist logon.example.org" ∧
    '\n' ∉ (realmlistContent "logon.example.org").data :=
  ⟨(realmlist_pointer_line "logon.example.org" (mkServer 0 3724 none) 0
      (by decide)).1,
   (realmlist_pointer_line "logon.example.org" (mkServer 0 3724 none) 0
      (by decide)).2.1⟩

-- #### C5 — NotFound on absent ids, no side effect, double remove

/-- After filtering out an id, no element with that id remains. -/
lemma any_filter_ne_id (l : List Server) (id : Nat) :
    (l.filter (fun s => s.id ≠ id)).any (fun s => s.id = id) = false := by
  rw [List.any_eq_false]
  intro s hs
  have := List.of_mem_filter hs
  simpa using this

/-- C5: For every id absent from the registry, `update_server` and
`remove_server` fail with NotFound and leave the full engine state —
in-memory and durable — literally unchanged; and whenever the id is
present, a remove succeeds and an immediately repeated remove of the
same id fails with NotFound, again with no state change. -/
theorem notfound_no_side_effect (eng : Engine) (id : Nat) (entry : Server)
    (ioOk : Bool) :
    ((∀ s ∈ eng.mem.servers, s.id ≠ id) →
      updateServer id entry ioOk eng = (.error .NotFound, eng) ∧
      removeServer id ioOk eng = (.error .NotFound, eng)) ∧
    ((∃ s ∈ eng.mem.servers, s.id = id) →
      (removeServer id true eng).1 = .ok () ∧
      removeServer id true (removeServer id true eng).2
        = (.error .NotFound, (removeServer id true eng).2)) := by
  constructor
  · intro habs
    have hany : eng.mem.servers.any (fun s => s.id = id) = false := by
      rw [List.any_eq_false]
      intro s hs
      simpa using habs s hs
    constructor
    · simp [updateServer, hany]
    · simp [removeServer, hany]
  · intro hpres
    have hany : eng.mem.servers.any (fun s => s.id = id) = true := by
      rw [List.any_eq_true]
      rcases hpres with ⟨s, hs, hid⟩
      exact ⟨s, hs, by simpa using hid⟩
    constructor
    · simp [removeServer, hany]
    · set R := (removeServer id true eng).2 with hR
      have h2 : R.mem.servers = eng.mem.servers.filter (fun s => s.id ≠ id) := by
        rw [hR]; simp [removeServer, hany, commit]
      have hany2 : (R.mem.servers.any (fun s => s.id = id)) = false := by
        rw [h2]; exact any_filter_ne_id eng.mem.servers id
      unfold removeServer
      rw [hany2]
      simp

/-- Witness for C5: on a one-server engine (id 5), operations on the
absent id 7 fail with NotFound and change nothing, and removing id 5
twice succeeds then fails with NotFound. -/
theorem notfound_no_side_effect_w :
    (updateServer 7 (mkServer 7 3724 none) true engOne
        = (.error .NotFound, engOne) ∧
      removeServer 7 true engOne = (.error .NotFound, engOne)) ∧
    ((removeServer 5 true engOne).1 = .ok () ∧
      removeServer 5 true (removeServer 5 true engOne).2
        = (.error .NotFound, (removeServer 5 true engOne).2)) :=
  ⟨(notfound_no_side_effect engOne 7 (mkServer 7 3724 none) true).1
      (by decide),
   (notfound_no_side_effect engOne 5 (mkServer 7 3724 none) true).2
      ⟨mkServer 5 3724 none, by decide, rfl⟩⟩

-- #### C6 — validation of empty name / host

/-- C6 counterexample: on the empty registry, `update_server` of id 0
with an entry whose `name` is empty fails with NotFound, not
Validation — the absent-id check precedes field validation ("fails
with NotFound if `id` is absent; otherwise replaces ...") — so the
claim "update_server fails with a Validation error" does not hold for
every empty-named entry. -/
theorem update_empty_name_counterexample :
    (updateServer 0 (namedServer "" "h") true engine0).1
      = .error .NotFound ∧
    (namedServer "" "h").name = "" ∧
    EngineError.NotFound ≠ EngineError.Validation := by
  exact ⟨rfl, rfl, by decide⟩

/-- C6 amended: For every entry whose `name` or `realmlist_host` is
empty, `add_server` fails with a Validation error and leaves the
engine (hence the registry size) unchanged, before any persistence or
I/O; `update_server` does likewise whenever the id is present (an
absent id fails with NotFound first); and the UI form guard
(`saveServerFromForm`) rejects an empty trimmed name or host with a
local validation error before issuing any backend call, leaving the
engine unchanged. -/
theorem empty_field_validation (entry : Server) (id : Nat) (ioOk : Bool)
    (eng : Engine) (nameRaw hostRaw : String) (portParsed : Option Int)
    (wowExeRaw wowPathRaw : String) (editingId : Option Nat)
    (hempty : entry.name = "" ∨ entry.realmlist_host = "") :
    addServer entry ioOk eng = (.error .Validation, eng) ∧
    (getServers (addServer entry ioOk eng).2).length
      = (getServers eng).length ∧
    (eng.mem.servers.any (fun s => s.id = id) = true →
      updateServer id entry ioOk eng = (.error .Validation, eng)) ∧
    (jsTrim nameRaw = "" ∨ jsTrim hostRaw = "" →
      saveServerFromForm nameRaw hostRaw portParsed wowExeRaw wowPathRaw
        editingId ioOk eng = (.localValidationError, eng)) := by
  have hadd : addServer entry ioOk eng = (.error .Validation, eng) := by
    simp [addServer, hempty]
  refine ⟨hadd, by rw [hadd], fun hpres => ?_, fun hform => ?_⟩
  · simp [updateServer, hpres, hempty]
  · simp [saveServerFromForm, hform]

/-- Witness for the amended C6 at concrete inputs: an empty name is
rejected by `add_server`, by `update_server` on the present id 5, and
by the form guard, each leaving the engine unchanged. -/
theorem empty_field_validation_w :
    addServer (namedServer "" "h") true engOne
      = (.error .Validation, engOne) ∧
    (getServers (addServer (namedServer "" "h") true engOne).2).length
      = (getServers engOne).length ∧
    updateServer 5 (namedServer "" "h") true engOne
      = (.error .Validation, engOne) ∧
    saveServerFromForm "  " "h" none "" "" none true engOne
      = (.localValidationError, engOne) := by
  have h := empty_field_validation (namedServer "" "h") 5 true engOne
    "  " "h" none "" "" none (Or.inl rfl)
  exact ⟨h.1, h.2.1, h.2.2.1 (by decide), h.2.2.2 (Or.inl (by decide))⟩

-- #### C7 — N adds: N entries, unique ids, insertion order

/-- `mintAll` preserves length. -/
lemma mintAll_length (es : List Server) (n : Nat) :
    (mintAll n es).length = es.length := by
  induction es generalizing n with
  | nil => rfl
  | cons e rest ih => simp [mintAll, ih]

/-- Every id minted from `n` on is at least `n`. -/
lemma mintAll_id_ge (es : List Server) (n : Nat) :
    ∀ s ∈ mintAll n es, n ≤ s.id := by
  induction es generalizing n with
  | nil => intro s hs; cases hs
  | cons e rest ih =>
    intro s hs
    rw [mintAll] at hs
    rcases List.mem_cons.mp hs with h | h
    · rw [h]
    · exact Nat.le_of_succ_le (ih (n + 1) s h)

/-- Consecutively minted ids are pairwise distinct. -/
lemma mintAll_ids_nodup (es : List Server) (n : Nat) :
    ((mintAll n es).map Server.id).Nodup := by
  induction es generalizing n with
  | nil => simp [mintAll]
  | cons e rest ih =>
    rw [mintAll, List.map_cons, List.nodup_cons]
    refine ⟨?_, ih (n + 1)⟩
    intro hmem
    rcases List.mem_map.mp hmem with ⟨s, hs, hid⟩
    have hge := mintAll_id_ge rest (n + 1) s hs
    simp at hid
    omega

/-- The `i`-th stored entry is the `i`-th submission with id `n + i`. -/
lemma mintAll_get (es : List Server) (n : Nat) :
    ∀ i : Nat, ∀ hi : i < es.length, ∀ hj : i < (mintAll n es).length,
      (mintAll n es).get ⟨i, hj⟩ = { es.get ⟨i, hi⟩ with id := n + i } := by
  induction es generalizing n with
  | nil => intro i hi; cases hi
  | cons e rest ih =>
    intro i hi hj
    cases i with
    | zero => simp [mintAll]
    | succ k =>
      have hk : k < rest.length := Nat.lt_of_succ_lt_succ hi
      have hk2 : k < (mintAll (n + 1) rest).length := by
        rw [mintAll_length]; exact hk
      have := ih (n + 1) k hk hk2
      simp only [mintAll, List.get_cons_succ]
      rw [this]
      have harith : n + 1 + k = n + (k + 1) := by omega
      rw [harith]

/-- A run of valid adds appends exactly the minted entries. -/
lemma addAll_ok (es : List Server)
    (hval : ∀ e ∈ es, e.name ≠ "" ∧ e.realmlist_host ≠ "") :
    ∀ eng : Engine, ∃ eng2, addAll es eng = .ok eng2 ∧
      eng2.mem.servers = eng.mem.servers ++ mintAll eng.mem.nextId es := by
  induction es with
  | nil => intro eng; exact ⟨eng, rfl, by simp [mintAll]⟩
  | cons e rest ih =>
    intro eng
    have he := hval e (List.mem_cons_self e rest)
    have haddeq : addServer e true eng
        = (.ok { e with id := eng.mem.nextId },
           commit { eng.mem with
             servers := eng.mem.servers ++ [{ e with id := eng.mem.nextId }],
             nextId := eng.mem.nextId + 1 }) := by
      simp [addServer, he.1, he.2]
    have hrest : ∀ e2 ∈ rest, e2.name ≠ "" ∧ e2.realmlist_host ≠ "" :=
      fun e2 h2 => hval e2 (List.mem_cons_of_mem e h2)
    rcases ih hrest (commit { eng.mem with
        servers := eng.mem.servers ++ [{ e with id := eng.mem.nextId }],
        nextId := eng.mem.nextId + 1 }) with ⟨eng2, hrun, hservers⟩
    refine ⟨eng2, ?_, ?_⟩
    · rw [addAll, haddeq]
      exact hrun
    · rw [hservers]
      simp [commit, mintAll, List.append_assoc]

/-- C7: Starting from the empty registry, any sequence of N valid add
operations succeeds, and `get_servers` then returns exactly N entries
with pairwise-distinct ids, in insertion order: the i-th listed entry
carries the i-th submitted name, host and port (each new entry is
appended at the end). -/
theorem add_n_entries (es : List Server)
    (hval : ∀ e ∈ es, e.name ≠ "" ∧ e.realmlist_host ≠ "") :
    ∃ eng, addAll es engine0 = .ok eng ∧
      (getServers eng).length = es.length ∧
      ((getServers eng).map Server.id).Nodup ∧
      ∀ i : Nat, ∀ hi : i < es.length, ∀ hj : i < (getServers eng).length,
        ((getServers eng).get ⟨i, hj⟩).name = (es.get ⟨i, hi⟩).name ∧
        ((getServers eng).get ⟨i, hj⟩).realmlist_host
          = (es.get ⟨i, hi⟩).realmlist_host ∧
        ((getServers eng).get ⟨i, hj⟩).port = (es.get ⟨i, hi⟩).port := by
  rcases addAll_ok es hval engine0 with ⟨eng, hrun, hservers⟩
  have hs : getServers eng = mintAll 0 es := by
    rw [getServers, hservers]; rfl
  refine ⟨eng, hrun, ?_, ?_, ?_⟩
  · rw [hs, mintAll_length]
  · rw [hs]; exact mintAll_ids_nodup es 0
  · rw [hs]
    intro i hi hj2
    rw [mintAll_get es 0 i hi hj2]
    exact ⟨rfl, rfl, rfl⟩

/-- Witness for C7: adding two concrete valid entries yields two
entries with distinct ids in submission order. -/
theorem add_n_entries_w :
    ∃ eng, addAll [namedServer "A" "a.example", namedServer "B" "b.example"]
        engine0 = .ok eng ∧
      (getServers eng).length
        = [namedServer "A" "a.example", namedServer "B" "b.example"].length ∧
      ((getServers eng).map Server.id).Nodup ∧
      ∀ i : Nat,
        ∀ hi : i < [namedServer "A" "a.example",
                    namedServer "B" "b.example"].length,
        ∀ hj : i < (getServers eng).length,
        ((getServers eng).get ⟨i, hj⟩).name
            = ([namedServer "A" "a.example",
                namedServer "B" "b.example"].get ⟨i, hi⟩).name ∧
        ((getServers eng).get ⟨i, hj⟩).realmlist_host
            = ([namedServer "A" "a.example",
                namedServer "B" "b.example"].get ⟨i, hi⟩).realmlist_host ∧
        ((getServers eng).get ⟨i, hj⟩).port
            = ([namedServer "A" "a.example",
                namedServer "B" "b.example"].get ⟨i, hi⟩).port :=
  add_n_entries [namedServer "A" "a.example", namedServer "B" "b.example"]
    (by decide)

-- #### C8 — persistence round-trip

/-- Every committed state is synced by construction. -/
lemma commit_synced (mem : EngineState) :
    loadServersFromDisk (commit mem).disk = getServers (commit mem) ∧
    loadSettingsFromDisk (commit mem).disk = getSettings (commit mem) :=
  ⟨rfl, rfl⟩

/-- One engine command keeps disk and memory in sync: it either leaves
the engine untouched (failure) or commits, which writes both records
durably before returning. -/
lemma runOp_synced (op : Op) (ioOk : Bool) (eng : Engine)
    (h : loadServersFromDisk eng.disk = getServers eng ∧
         loadSettingsFromDisk eng.disk = getSettings eng) :
    loadServersFromDisk (runOp op ioOk eng).disk
      = getServers (runOp op ioOk eng) ∧
    loadSettingsFromDisk (runOp op ioOk eng).disk
      = getSettings (runOp op ioOk eng) := by
  cases op with
  | add entry =>
    simp only [runOp, addServer]
    split
    · exact h
    · split
      · exact commit_synced _
      · exact h
  | update id entry =>
    simp only [runOp, updateServer]
    split
    · split
      · exact h
      · split
        · exact commit_synced _
        · exact h
    · exact h
  | remove id =>
    simp only [runOp, removeServer]
    split
    · split
      · exact commit_synced _
      · exact h
    · exact h
  | setSettings st =>
    simp only [runOp, saveSettingsCmd]
    split
    · exact commit_synced _
    · exact h

/-- C8: After any sequence of add/update/remove/save-settings commands
— each with an arbitrary durable-write outcome — reloading the server
list and the settings from durable storage (simulating a restart)
reproduces exactly the in-memory registry and settings, i.e. the state
at the last successful mutation. -/
theorem persistence_round_trip (ops : List (Op × Bool)) :
    loadServersFromDisk (runOps ops engine0).disk
      = getServers (runOps ops engine0) ∧
    loadSettingsFromDisk (runOps ops engine0).disk
      = getSettings (runOps ops engine0) := by
  have general : ∀ eng : Engine,
      (loadServersFromDisk eng.disk = getServers eng ∧
       loadSettingsFromDisk eng.disk = getSettings eng) →
      loadServersFromDisk (runOps ops eng).disk
        = getServers (runOps ops eng) ∧
      loadSettingsFromDisk (runOps ops eng).disk
        = getSettings (runOps ops eng) := by
    induction ops with
    | nil => intro eng h; exact h
    | cons p rest ih =>
      intro eng h
      have hstep := runOp_synced p.1 p.2 eng h
      exact ih (runOp p.1 p.2 eng) hstep
  exact general engine0 ⟨rfl, rfl⟩

-- #### C9 — escapeHtml renders stored fields inert

/-- No escaped character expands to a raw angle bracket. -/
lemma escChar_no_angle (c : Char) :
    '<' ∉ (escChar c).data ∧ '>' ∉ (escChar c).data := by
  rw [escChar]
  split_ifs with h1 h2 h3 h4
  · exact ⟨by decide, by decide⟩
  · exact ⟨by decide, by decide⟩
  · exact ⟨by decide, by decide⟩
  · exact ⟨by decide, by decide⟩
  · constructor
    · intro hm
      have hc : '<' = c := by simpa [String.singleton] using hm
      exact h2 hc.symm
    · intro hm
      have hc : '>' = c := by simpa [String.singleton] using hm
      exact h3 hc.symm

/-- Raw angle brackets never survive escaping. -/
lemma escape_no_angle (l : List Char) :
    '<' ∉ escapeHtmlChars l ∧ '>' ∉ escapeHtmlChars l := by
  induction l with
  | nil =>
    constructor
    · intro h
      rw [escapeHtmlChars] at h
      cases h
    · intro h
      rw [escapeHtmlChars] at h
      cases h
  | cons c rest ih =>
    rw [escapeHtmlChars]
    constructor <;> intro hm <;> rcases List.mem_append.mp hm with h | h
    · exact (escChar_no_angle c).1 h
    · exact ih.1 h
    · exact (escChar_no_angle c).2 h
    · exact ih.2 h

/-- Unescaping inverts escaping: the escaped output still denotes
exactly the original text. -/
lemma unescape_escape (l : List Char) :
    unescapeChars (escapeHtmlChars l) = l := by
  induction l with
  | nil => rfl
  | cons c rest ih =>
    rw [escapeHtmlChars]
    by_cases h1 : c = '&'
    · subst h1
      have hd : (escChar '&').data = ['&', 'a', 'm', 'p', ';'] := by decide
      rw [hd]
      simp [unescapeChars, ih]
    · by_cases h2 : c = '<'
      · subst h2
        have hd : (escChar '<').data = ['&', 'l', 't', ';'] := by decide
        rw [hd]
        simp [unescapeChars, ih]
      · by_cases h3 : c = '>'
        · subst h3
          have hd : (escChar '>').data = ['&', 'g', 't', ';'] := by decide
          rw [hd]
          simp [unescapeChars, ih]
        · by_cases h4 : c = ' '
          · subst h4
            have hd : (escChar ' ').data
                = ['&', 'n', 'b', 's', 'p', ';'] := by decide
            rw [hd]
            simp [unescapeChars, ih]
          · have hd : (escChar c).data = [c] := by
              rw [escChar, if_neg h1, if_neg h2, if_neg h3, if_neg h4]
              rfl
            rw [hd]
            simp [unescapeChars, h1, ih]

/-- Escaped text contains zero raw angle brackets (count form). -/
lemma escape_count_angle (l : List Char) :
    (escapeHtmlChars l).count '<' = 0 ∧ (escapeHtmlChars l).count '>' = 0 :=
  ⟨List.count_eq_zero.mpr (escape_no_angle l).1,
   List.count_eq_zero.mpr (escape_no_angle l).2⟩

/-- C9: `escapeHtml` renders any string as inert text — its output
contains no raw `<` or `>` at all, and decoding the entities it emits
(`&amp;`, `&lt;`, `&gt;`, `&nbsp;`) recovers the input exactly, so
`<`, `>`, `&` survive only as entities — and `renderServerList`
inserts the server name and host only through `escapeHtml`, so the
list-item markup always has exactly the four tag brackets of its two
fixed spans, whatever the stored fields contain. -/
theorem escapeHtml_inert (s : String) (sv : Server) :
    '<' ∉ (escapeHtml s).data ∧
    '>' ∉ (escapeHtml s).data ∧
    unescapeHtml (escapeHtml s) = s ∧
    (liInnerHTML sv).data.count '<' = 4 ∧
    (liInnerHTML sv).data.count '>' = 4 := by
  refine ⟨(escape_no_angle s.data).1, (escape_no_angle s.data).2, ?_, ?_, ?_⟩
  · cases s with
    | mk d =>
      show String.mk (unescapeChars (escapeHtmlChars d)) = String.mk d
      rw [unescape_escape]
  · have hdata : (liInnerHTML sv).data
        = (((("<span class=\"server-list-name\">".data
            ++ escapeHtmlChars sv.name.data)
            ++ "</span><span class=\"server-list-host\">".data)
            ++ escapeHtmlChars sv.realmlist_host.data)
            ++ "</span>".data) := rfl
    rw [hdata]
    simp only [List.count_append]
    rw [(escape_count_angle sv.name.data).1,
        (escape_count_angle sv.realmlist_host.data).1]
    decide
  · have hdata : (liInnerHTML sv).data
        = (((("<span class=\"server-list-name\">".data
            ++ escapeHtmlChars sv.name.data)
            ++ "</span><span class=\"server-list-host\">".data)
            ++ escapeHtmlChars sv.realmlist_host.data)
            ++ "</span>".data) := rfl
    rw [hdata]
    simp only [List.count_append]
    rw [(escape_count_angle sv.name.data).2,
        (escape_count_angle sv.realmlist_host.data).2]
    decide

-- #### C10 — selection invariant after a successful remove

/-- C10: After every successful `remove_server` issued by the UI's
`confirmRemove`, the selection invariant holds: `selectedId` is the id
of the first entry of the reloaded list (or `none` when the list is
empty), the status map no longer holds an entry for the removed id,
and whenever something is selected it is the id of an entry of the
displayed list — the selection never refers to a non-existent
server. -/
theorem confirmRemove_selection_invariant (ui : UIState) (eng : Engine)
    (ioOk : Bool) (id : Nat) (hsel : ui.selectedId = some id)
    (hok : (removeServer id ioOk eng).1 = .ok ()) :
    (confirmRemove ui eng ioOk).1.selectedId
      = ((getServers (removeServer id ioOk eng).2).head?).map Server.id ∧
    (confirmRemove ui eng ioOk).1.statusMap id = none ∧
    ∀ sid, (confirmRemove ui eng ioOk).1.selectedId = some sid →
      ∃ s ∈ (confirmRemove ui eng ioOk).1.serverList, s.id = sid := by
  rcases hr : removeServer id ioOk eng with ⟨r, eng2⟩
  have hr1 : r = .ok () := by
    have h2 := hok
    rw [hr] at h2
    exact h2
  subst hr1
  have hconf : confirmRemove ui eng ioOk
      = ({ serverList := getServers eng2,
           statusMap := fun k => if k = id then none else ui.statusMap k,
           selectedId := ((getServers eng2).head?).map Server.id }, eng2) := by
    simp only [confirmRemove, hsel, hr]
  rw [hconf]
  refine ⟨rfl, by simp, ?_⟩
  intro sid hmap
  simp only at hmap
  rcases hhead : (getServers eng2).head? with _ | s0
  · rw [hhead] at hmap
    cases hmap
  · rw [hhead] at hmap
    have hs0 : s0 ∈ getServers eng2 := List.mem_of_mem_head? hhead
    have : s0.id = sid := by
      simpa using hmap
    exact ⟨s0, hs0, this⟩

/-- Witness for C10: removing the single selected server (id 5) leaves
nothing selected and clears its status entry. -/
theorem confirmRemove_selection_invariant_w :
    (confirmRemove uiOne engOne true).1.selectedId
      = ((getServers (removeServer 5 true engOne).2).head?).map Server.id ∧
    (confirmRemove uiOne engOne true).1.statusMap 5 = none ∧
    ∀ sid, (confirmRemove uiOne engOne true).1.selectedId = some sid →
      ∃ s ∈ (confirmRemove uiOne engOne true).1.serverList, s.id = sid :=
  confirmRemove_selection_invariant uiOne engOne true 5 rfl rfl
